import Mathlib

/-!
Verification of the ClusterDeployment reconciliation engine
(pkg/controller/clusterdeployment/clusterdeployment_controller.go).

The Go controller is shallowly embedded as pure Lean functions over an explicit
`World` snapshot of the object store. Each store read is modelled as a field of
`World` (an `Option` field models get-by-derived-name, `none` meaning not-found);
each store write is recorded as a `StoreOp` in the list the reconciliation
returns alongside its `RResult`. Store writes are modelled as succeeding;
transient store-error branches of the source therefore do not appear. Metric
observations are not store writes and are not modelled. Durations and
timestamps are integral seconds; a `creationTimestamp` or `deletionTimestamp`
of `none` models the zero time.

Functions of this repository that the controller calls but whose sources are
not under src (controllerutils, install, imageset, apihelpers) are modelled
from the spec; each such definition carries a doc comment saying so.
-/

namespace Hive

/-! ### Constants mirrored from the source -/

def serviceAccountName : String := "cluster-installer"

def deleteAfterAnnKey : String := "hive.openshift.io/delete-after"

def sshKeySecretKey : String := "ssh-publickey"

def kubeconfigKey : String := "kubeconfig"

def rawKubeconfigKey : String := "raw-kubeconfig"

def generationAnnKey : String := "hive.openshift.io/cluster-deployment-generation"

def jobHashAnnKey : String := "hive.openshift.io/jobhash"

def dockerConfigJsonKey : String := ".dockerconfigjson"

/-- The defaultRequeueTime constant (10 seconds). -/
def defaultRequeueSeconds : Int := 10

/-- Token of the deprovision finalizer (hivev1.FinalizerDeprovision). -/
def finalizerDeprovision : String := "hive.openshift.io/deprovision"

/-! ### Small map helpers (Go string maps as association lists) -/

/-- Lookup in a Go string map modelled as an association list. -/
def lookupKV (m : List (String × String)) (k : String) : Option String :=
  (m.find? (fun p => p.1 = k)).map (fun p => p.2)

/-- Set a key in a Go string map: replace in place when present, append otherwise. -/
def setKV (m : List (String × String)) (k v : String) : List (String × String) :=
  if (m.find? (fun p => p.1 = k)).isSome then
    m.map (fun p => if p.1 = k then (k, v) else p)
  else m ++ [(k, v)]

/-! ### Data model -/

/-- One spec.ingress entry: a name and a domain. -/
structure Ingress where
  name : String
  domain : String
  deriving DecidableEq, Repr

/-- The spec.images overrides (empty string means unset, as in the Go struct). -/
structure Images where
  hiveImage : String
  releaseImage : String
  installerImage : String
  deriving DecidableEq, Repr

/-- The AWS platform section of the spec. -/
structure AWSPlatform where
  region : String
  userTags : List (String × String)
  deriving DecidableEq, Repr

/-- A status condition (type, boolean status, reason, message). -/
structure Condition where
  condType : String
  statusTrue : Bool
  reason : String
  message : String
  deriving DecidableEq, Repr

/-- The ClusterDeployment spec fields the controller reads. `imageSetRef`,
`sshKeyRef`, `pullSecretRef`, `platformSecretsAWS` carry referenced object
names; `platformAWS` is the AWS platform section (none on other platforms). -/
structure CDSpec where
  clusterName : String
  baseDomain : String
  ingress : List Ingress
  images : Images
  imageSetRef : Option String
  sshKeyRef : Option String
  pullSecretRef : String
  manageDNS : Bool
  preserveOnDelete : Bool
  platformAWS : Option AWSPlatform
  platformSecretsAWS : Option String
  deriving DecidableEq, Repr

/-- The ClusterDeployment status fields the controller reads and writes. -/
structure CDStatus where
  installed : Bool
  installerImage : Option String
  infraID : String
  clusterID : String
  installRestarts : Nat
  adminKubeconfigSecret : String
  apiURL : String
  webConsoleURL : String
  conditions : List Condition
  deriving DecidableEq, Repr

/-- The ClusterDeployment object. `ns` is the namespace; `anns` the metadata
annotations. -/
structure ClusterDeployment where
  name : String
  ns : String
  generation : Int
  creationTimestamp : Option Int
  deletionTimestamp : Option Int
  finalizers : List String
  anns : List (String × String)
  spec : CDSpec
  status : CDStatus
  deriving DecidableEq, Repr

/-- A batch job as the controller observes it. `anns` is `none` when the Go
annotation map is nil (read of a nil map misses; the source also branches on
nil-ness itself). `complete` and `failedCond` model the JobComplete and
JobFailed conditions; `payload` is the serialized executable job spec that the
content hash covers. -/
structure Job where
  name : String
  ns : String
  deletionTimestamp : Option Int
  anns : Option (List (String × String))
  succeeded : Nat
  complete : Bool
  failedCond : Bool
  startTime : Int
  completionTime : Int
  payload : String
  deriving DecidableEq, Repr

/-- A DNSZone condition (type plus boolean status). -/
structure DNSCondition where
  condType : String
  statusTrue : Bool
  deriving DecidableEq, Repr

/-- A managed DNSZone object. -/
structure DNSZone where
  name : String
  ns : String
  deletionTimestamp : Option Int
  zone : String
  linkToParentDomain : Bool
  awsAccountSecret : String
  awsRegion : String
  awsTags : List (String × String)
  conditions : List DNSCondition
  deriving DecidableEq, Repr

/-- A ClusterDeprovisionRequest object. -/
structure DeprovisionRequest where
  name : String
  ns : String
  infraID : String
  clusterID : String
  awsRegion : String
  awsCredentials : Option String
  completed : Bool
  deriving DecidableEq, Repr

/-- A ClusterImageSet: optional fallback images, referenced by name. -/
structure ClusterImageSet where
  name : String
  hiveImage : Option String
  releaseImage : Option String
  installerImage : Option String
  deriving DecidableEq, Repr

/-- A secret: a name and a string-keyed data map. -/
structure Secret where
  name : String
  data : List (String × String)
  deriving DecidableEq, Repr

/-- The generated install-config artifact metadata the engine handles
(name and annotations; the body is opaque to the controller). -/
structure InstallCfgMap where
  name : String
  anns : List (String × String)
  deriving DecidableEq, Repr

/-- The observed state a single reconciliation runs against. The `Option`
children model get-by-derived-name (none is not-found). `podRestarts` is the
successful result of listing install-pod container restarts (the source treats
a listing failure as non-fatal and is not modelled). `kubeClusters` models the
parse of the admin kubeconfig into cluster-name/server pairs and
`remoteRouteHost` the console route host fetched from the remote cluster
(`none` merges remote-client construction and route fetch failures). -/
structure World where
  now : Int
  cd : ClusterDeployment
  installJob : Option Job
  imagesetJob : Option Job
  dnsZone : Option DNSZone
  deprovisionRequest : Option DeprovisionRequest
  installConfigMapExists : Bool
  imageSets : List ClusterImageSet
  secrets : List Secret
  podRestarts : Nat
  kubeClusters : List (String × String)
  remoteRouteHost : Option String
  deriving DecidableEq, Repr

/-- A store write performed during a reconciliation pass. Deletes of children
carry the child name; delete propagation (foreground cascade) is uniform in the
source for every child delete recorded here except deleteCD. -/
inductive StoreOp where
  | updateCD (cd : ClusterDeployment)
  | updateCDStatus (st : CDStatus)
  | deleteCD
  | createInstallJob (j : Job)
  | deleteInstallJob (name : String)
  | createImagesetJob (j : Job)
  | deleteImagesetJob (name : String)
  | createInstallConfigMap (name : String) (generation : Int)
  | updateInstallConfigMap (name : String)
  | ensureServiceAccount
  | createDNSZone (z : DNSZone)
  | deleteDNSZone (name : String)
  | createDeprovisionRequest (rq : DeprovisionRequest)
  | updateSecret (s : Secret)
  deriving DecidableEq, Repr

/-- The result of a reconciliation pass: done, an explicit requeue delay in
seconds, or an error handed to the backoff substrate. -/
inductive RResult where
  | done
  | requeueAfter (seconds : Int)
  | failed (msg : String)
  deriving DecidableEq, Repr

/-! ### Helpers modelled from the spec (sources outside src) -/

/-- Modelled from the spec: controllerutils.HasFinalizer; absent from src. -/
def hasFinalizer (cd : ClusterDeployment) : Bool :=
  cd.finalizers.contains finalizerDeprovision

/-- Modelled from the spec: controllerutils.AddFinalizer; absent from src.
Attaches the deprovision finalizer token, changing nothing else. -/
def addFinalizer (cd : ClusterDeployment) : ClusterDeployment :=
  if hasFinalizer cd then cd
  else { cd with finalizers := cd.finalizers ++ [finalizerDeprovision] }

/-- Modelled from the spec: controllerutils.DeleteFinalizer; absent from src.
Removes the deprovision finalizer token, changing nothing else. -/
def removeFinalizer (cd : ClusterDeployment) : ClusterDeployment :=
  { cd with finalizers := cd.finalizers.filter (fun f => f ≠ finalizerDeprovision) }

/-- Modelled from the spec: controllerutils.IsSuccessful reports the
JobComplete condition; absent from src. -/
def isSuccessful (j : Job) : Bool := j.complete

/-- Modelled from the spec: controllerutils.IsFinished reports a terminal job
(succeeded or failed); absent from src. -/
def isFinished (j : Job) : Bool := j.complete || j.failedCond

/-- Modelled from the spec: apihelpers.GetResourceName joins name and suffix;
absent from src. -/
def resourceName (base suffix : String) : String := base ++ "-" ++ suffix

/-- Modelled from the spec: install.GetInstallJobName; absent from src. -/
def installJobName (cd : ClusterDeployment) : String := resourceName cd.name "install"

/-- The dnsZoneName derivation from the source. -/
def dnsZoneName (cdName : String) : String := resourceName cdName "zone"

/-- Annotation lookup on a job, missing when the Go annotation map is nil. -/
def jobAnn (j : Job) (k : String) : Option String :=
  match j.anns with
  | none => none
  | some m => lookupKV m k

/-- Annotation read with the Go map-read default of the empty string. -/
def jobAnnD (j : Job) (k : String) : String := (jobAnn j k).getD ""

/-- Secret lookup by name in the store. -/
def findSecret (w : World) (name : String) : Option Secret :=
  w.secrets.find? (fun s => s.name = name)

/-- Modelled from the spec: controllerutils.LoadSecretData fetches a secret and
extracts one key; absent from src. Not-found and missing-key are merged. -/
def loadSecretData (w : World) (secretName key : String) : Option String :=
  (findSecret w secretName).bind (fun s => lookupKV s.data key)

/-- Decimal digits to a number; any non-digit character or the empty list
fails. Shared by the modelled Go parsers below. -/
def decimalDigits (l : List Char) : Option Nat :=
  if l.isEmpty then none
  else l.foldl (fun acc c =>
    acc.bind (fun n => if c.isDigit then some (10 * n + (c.toNat - 48)) else none))
    (some 0)

/-- Modelled from the spec: Go strconv.ParseInt with its error ignored by the
caller, which leaves the zero value on a parse failure. Implemented over the
character list so that concrete evaluation reduces in the kernel. -/
def parseGoInt (s : String) : Int :=
  match s.data with
  | '-' :: rest =>
    match decimalDigits rest with
    | some n => -(n : Int)
    | none => 0
  | l =>
    match decimalDigits l with
    | some n => (n : Int)
    | none => 0

/-- Modelled from the spec: Go time.ParseDuration, restricted to the unsigned
integral second, minute and hour forms the delete-after annotation uses; any
other string fails to parse. Implemented over the character list so that
concrete evaluation reduces in the kernel. Result in seconds. -/
def parseGoDuration (s : String) : Option Int :=
  match s.data.reverse with
  | 's' :: rest => (decimalDigits rest.reverse).map (fun n => (n : Int))
  | 'm' :: rest => (decimalDigits rest.reverse).map (fun n => 60 * (n : Int))
  | 'h' :: rest => (decimalDigits rest.reverse).map (fun n => 3600 * (n : Int))
  | _ => none

/-! ### Content hash, artifact generation -/

/-- The calculateJobSpecHash digest of the source. The md5 hex digest of the
marshaled job spec is modelled as an injective tagging of the serialized
payload: the engine uses the digest only as an opaque deterministic fingerprint
compared for equality. The hash covers the job spec payload only, never the
annotations the engine sets afterward. -/
def calculateJobSpecHash (j : Job) : String := "md5-" ++ j.payload

/-- Modelled from the spec: install.GenerateInstallerJob, the external artifact
builder; absent from src. It deterministically produces an unowned job and the
companion install-config artifact from the cluster parameters; the executable
payload is a canonical serialization of the inputs, and the generator stamps
the current cluster-deployment generation as an annotation on both. -/
def generateInstallerJob (cd : ClusterDeployment)
    (hiveImage releaseImage sshKey pullSecret : String) : Job × InstallCfgMap :=
  ({ name := installJobName cd
     ns := cd.ns
     deletionTimestamp := none
     anns := some [(generationAnnKey, toString cd.generation)]
     succeeded := 0
     complete := false
     failedCond := false
     startTime := 0
     completionTime := 0
     payload := String.intercalate "|"
       [cd.name, cd.ns, cd.spec.clusterName, cd.spec.baseDomain,
        hiveImage, releaseImage, serviceAccountName, sshKey, pullSecret] },
   { name := resourceName cd.name "installconfig"
     anns := [(generationAnnKey, toString cd.generation)] })

/-- Attach the computed content hash as the job hash annotation, creating the
annotation map when nil, exactly as the source does after generation. -/
def withHashAnn (j : Job) (hash : String) : Job :=
  { j with anns := some (setKV (j.anns.getD []) jobHashAnnKey hash) }

/-- Modelled from the spec: imageset.GenerateImageSetJob produces the one-shot
installer-image resolution job, idempotent by name, never carrying a deletion
timestamp; absent from src. -/
def generateImageSetJob (cd : ClusterDeployment) (releaseImage hiveImage : String) : Job :=
  { name := resourceName cd.name "imageset"
    ns := cd.ns
    deletionTimestamp := none
    anns := some []
    succeeded := 0
    complete := false
    failedCond := false
    startTime := 0
    completionTime := 0
    payload := String.intercalate "|" [cd.name, cd.ns, releaseImage, hiveImage] }

/-! ### Wildcard ingress migration -/

/-- The wildcardDomain regular expression of the source matches exactly a
leading literal star followed by a literal dot (its case-insensitivity flag is
vacuous on those two characters). -/
def isWildcardDomain (d : String) : Bool :=
  match d.data with
  | '*' :: '.' :: _ => true
  | _ => false

/-- Replacement of the anchored wildcard match by the empty string: remove the
two leading characters when they are star-dot, else leave the domain alone
(the anchor cannot match again after one replacement). -/
def stripWildcard (d : String) : String :=
  match d.data with
  | '*' :: '.' :: rest => String.mk rest
  | _ => d

/-- The migrateWildcardIngress function: rewrite every ingress domain through
the wildcard strip, reporting whether any entry changed. -/
def migrateWildcardIngress (cd : ClusterDeployment) : ClusterDeployment × Bool :=
  let newEntries := cd.spec.ingress.map (fun e => { e with domain := stripWildcard e.domain })
  ({ cd with spec := { cd.spec with ingress := newEntries } },
   decide (newEntries ≠ cd.spec.ingress))

/-! ### Image resolution -/

/-- Modelled from the spec: images.GetHiveImage, the environment or hardcoded
fallback default; absent from src. -/
def defaultHiveImage : String := "default-hive-image"

/-- The getHiveImage precedence: spec override, then image set, then default. -/
def getHiveImage (cd : ClusterDeployment) (imageSet : Option ClusterImageSet) : String :=
  if cd.spec.images.hiveImage ≠ "" then cd.spec.images.hiveImage
  else
    match imageSet.bind (fun i => i.hiveImage) with
    | some h => h
    | none => defaultHiveImage

/-- The getReleaseImage precedence: spec override, then image set, else empty. -/
def getReleaseImage (cd : ClusterDeployment) (imageSet : Option ClusterImageSet) : String :=
  if cd.spec.images.releaseImage ≠ "" then cd.spec.images.releaseImage
  else
    match imageSet.bind (fun i => i.releaseImage) with
    | some r => r
    | none => ""

def imageSetNotFoundCondType : String := "ClusterImageSetNotFound"

def clusterImageSetFoundReason : String := "ClusterImageSetFound"

/-- Modelled from the spec: controllerutils.SetClusterDeploymentCondition with
the never-update-on-unchanged-status policy; absent from src. A condition is
added only when its status would be true; an existing condition is rewritten
only when its boolean status changes. -/
def setCDCondition (conds : List Condition) (ctype : String) (statusTrue : Bool)
    (reason msg : String) : List Condition :=
  match conds.find? (fun c => c.condType = ctype) with
  | some c =>
    if c.statusTrue = statusTrue then conds
    else conds.map (fun x =>
      if x.condType = ctype then
        { condType := ctype, statusTrue := statusTrue, reason := reason, message := msg }
      else x)
  | none =>
    if statusTrue then
      conds ++ [{ condType := ctype, statusTrue := statusTrue, reason := reason, message := msg }]
    else conds

/-- The getClusterImageSet lookup. On a dangling reference the source calls
setImageSetNotFoundCondition with isNotFound set to false (mirrored verbatim),
reporting modified when the condition list changed, in which case the status
was persisted. Returns (image set, modified, store writes). -/
def getClusterImageSet (w : World) (cd : ClusterDeployment) :
    Option ClusterImageSet × Bool × List StoreOp :=
  match cd.spec.imageSetRef with
  | none => (none, false, [])
  | some refName =>
    if refName = "" then (none, false, [])
    else
      match w.imageSets.find? (fun i => i.name = refName) with
      | some is => (some is, false, [])
      | none =>
        let newConds := setCDCondition cd.status.conditions imageSetNotFoundCondType false
          clusterImageSetFoundReason ("ClusterImageSet " ++ refName ++ " is available")
        if newConds = cd.status.conditions then (none, false, [])
        else (none, true, [.updateCDStatus { cd.status with conditions := newConds }])

/-- The resolveInstallerImage step. Spec override and image set are pure
lookups persisted to status; otherwise the one-shot resolution job is managed.
The first case of the source switch tests the deletion timestamp of the
freshly generated job (mirrored verbatim), not of the existing job. -/
def resolveInstallerImage (w : World) (cd : ClusterDeployment)
    (imageSet : Option ClusterImageSet) (releaseImage hiveImage : String) :
    RResult × List StoreOp :=
  if cd.spec.images.installerImage ≠ "" then
    (.done, [.updateCDStatus { cd.status with installerImage := some cd.spec.images.installerImage }])
  else
    match imageSet.bind (fun i => i.installerImage) with
    | some img => (.done, [.updateCDStatus { cd.status with installerImage := some img }])
    | none =>
      let genJob := generateImageSetJob cd releaseImage hiveImage
      match w.imagesetJob with
      | some existing =>
        if genJob.deletionTimestamp.isSome then (.requeueAfter defaultRequeueSeconds, [])
        else if isFinished existing then (.done, [.deleteImagesetJob existing.name])
        else (.done, [])
      | none => (.done, [.ensureServiceAccount, .createImagesetJob genJob])

/-! ### Dependency gate: managed DNS zone -/

def zoneAvailableCondType : String := "Available"

/-- The createManagedDNSZone construction of the owned zone object. -/
def buildManagedDNSZone (cd : ClusterDeployment) (aws : AWSPlatform) (creds : String) : DNSZone :=
  { name := dnsZoneName cd.name
    ns := cd.ns
    deletionTimestamp := none
    zone := cd.spec.baseDomain
    linkToParentDomain := true
    awsAccountSecret := creds
    awsRegion := aws.region
    awsTags := aws.userTags
    conditions := [] }

/-- The ensureManagedDNSZone check: errors on a non-AWS platform or platform
secret; reports ready iff the Available condition of an existing zone is true;
creates the zone (reporting not ready) when absent. -/
def ensureManagedDNSZone (w : World) (cd : ClusterDeployment) :
    Except String (Bool × List StoreOp) :=
  match cd.spec.platformAWS, cd.spec.platformSecretsAWS with
  | some aws, some creds =>
    match w.dnsZone with
    | some z =>
      let avail := z.conditions.find? (fun c => c.condType = zoneAvailableCondType)
      .ok ((match avail with | some c => c.statusTrue | none => false), [])
    | none => .ok (false, [.createDNSZone (buildManagedDNSZone cd aws creds)])
  | _, _ => .error "only AWS managed DNS is supported"

/-! ### Deletion workflow -/

/-- The ensureManagedDNSZoneDeleted garbage-collection safety net: with
manageDNS set and the zone still present, wait (requeue) when it is already
terminating, otherwise force-delete it and stop the pass; `none` means the
workflow proceeds. -/
def ensureManagedDNSZoneDeleted (w : World) (cd : ClusterDeployment) :
    Option (RResult × List StoreOp) :=
  if cd.spec.manageDNS then
    match w.dnsZone with
    | none => none
    | some z =>
      if z.deletionTimestamp.isSome then some (.requeueAfter defaultRequeueSeconds, [])
      else some (.done, [.deleteDNSZone z.name])
  else none

/-- The generateDeprovisionRequest construction: infra and cluster identifiers
copied from status, region and credentials copied from the spec when present. -/
def generateDeprovisionRequest (cd : ClusterDeployment) : DeprovisionRequest :=
  { name := cd.name
    ns := cd.ns
    infraID := cd.status.infraID
    clusterID := cd.status.clusterID
    awsRegion := match cd.spec.platformAWS with | some aws => aws.region | none => ""
    awsCredentials := cd.spec.platformSecretsAWS
    completed := false }

/-- The syncDeletedClusterDeployment workflow, entered only with the deletion
timestamp set and the deprovision finalizer present. Store writes are modelled
as succeeding, so the give-up-on-terminating-namespace fallback of the source
(reached only when creating the deprovision request fails) is unreached. -/
def syncDeletedClusterDeployment (w : World) (cd : ClusterDeployment) :
    RResult × List StoreOp :=
  match ensureManagedDNSZoneDeleted w cd with
  | some r => r
  | none =>
    match w.installJob with
    | some j =>
      if j.deletionTimestamp.isSome then (.requeueAfter defaultRequeueSeconds, [])
      else (.done, [.deleteInstallJob j.name])
    | none =>
      if cd.spec.preserveOnDelete && cd.status.installed then
        if hasFinalizer cd then (.done, [.updateCD (removeFinalizer cd)])
        else (.done, [])
      else
        if cd.status.infraID = "" then (.done, [.updateCD (removeFinalizer cd)])
        else
          match w.deprovisionRequest with
          | none => (.done, [.createDeprovisionRequest (generateDeprovisionRequest cd)])
          | some ex =>
            if ex.completed then (.done, [.updateCD (removeFinalizer cd)])
            else (.done, [])

/-! ### Idempotency guard and generation check -/

/-- The deleteJobOnHashChange decision: a new job is needed exactly when the
hash annotation is missing on the existing job or its value differs from the
one on the freshly generated job; when needed the existing job is deleted
(foreground cascade) and nothing is created in this pass. -/
def deleteJobOnHashChange (existingJob generatedJob : Job) : Bool × List StoreOp :=
  let newJobNeeded := (jobAnn existingJob jobHashAnnKey).isNone
  let newJobNeeded :=
    if jobAnnD existingJob jobHashAnnKey ≠ jobAnnD generatedJob jobHashAnnKey then true
    else newJobNeeded
  if newJobNeeded then (true, [.deleteInstallJob existingJob.name])
  else (false, [])

/-- The updateOutdatedConfigurations check: delete the existing job when its
generation annotation parses below the current generation, and rewrite the
config artifact likewise (the source issues an Update for it). Returns
(didGenerationChange, store writes). -/
def updateOutdatedConfigurations (cdGeneration : Int) (existingJob : Job)
    (cfgMap : InstallCfgMap) : Bool × List StoreOp :=
  let step1 : Bool × List StoreOp :=
    match jobAnn existingJob generationAnnKey with
    | some jg =>
      if parseGoInt jg < cdGeneration then (true, [.deleteInstallJob existingJob.name])
      else (false, [])
    | none => (false, [])
  let step2 : Bool × List StoreOp :=
    match lookupKV cfgMap.anns generationAnnKey with
    | some mg =>
      if parseGoInt mg < cdGeneration then (true, [.updateInstallConfigMap cfgMap.name])
      else (false, [])
    | none => (false, [])
  (step1.1 || step2.1, step1.2 ++ step2.2)

/-! ### Status convergence -/

/-- Modelled from the spec: controllerutils.FixupKubeconfig rewrites the
primary kubeconfig data deterministically from the raw copy; absent from src.
The rewrite is modelled as a tagged copy of the raw bytes; the engine relies
only on it being a deterministic function of the raw data. -/
def fixupKubeconfig (raw : String) : String := "fixedup-" ++ raw

/-- The fixupAdminKubeconfigSecret normalization: preserve a raw copy of the
original data when absent, recompute the primary key from the raw copy, and
write the secret back only when the data actually changed. -/
def fixupAdminKubeconfigSecret (sec : Secret) : Secret × List StoreOp :=
  let rawData :=
    match lookupKV sec.data rawKubeconfigKey with
    | some r => r
    | none => (lookupKV sec.data kubeconfigKey).getD ""
  let data1 :=
    if (lookupKV sec.data rawKubeconfigKey).isSome then sec.data
    else setKV sec.data rawKubeconfigKey ((lookupKV sec.data kubeconfigKey).getD "")
  let data2 := setKV data1 kubeconfigKey (fixupKubeconfig rawData)
  let sec2 : Secret := { sec with data := data2 }
  if sec2.data = sec.data then (sec2, [])
  else (sec2, [.updateSecret sec2])

/-- The installed-flag recomputation at the head of
updateClusterDeploymentStatus: when a named job is observed the flag mirrors
its success; otherwise it is left unchanged. -/
def statusAfterJobObservation (st : CDStatus) (jobOpt : Option Job) : CDStatus :=
  match jobOpt with
  | some j => if j.name ≠ "" ∧ j.ns ≠ "" then { st with installed := isSuccessful j } else st
  | none => st

/-- The setAdminKubeconfigStatus derivation: when either URL is unset, extract
the API server from the kubeconfig cluster entry matching the target cluster
name (error when absent) and derive the console URL from the remote route. -/
def setAdminKubeconfigStatus (w : World) (cd : ClusterDeployment) (st : CDStatus) :
    Except String CDStatus :=
  if st.webConsoleURL = "" ∨ st.apiURL = "" then
    match w.kubeClusters.find? (fun p => p.1 = cd.spec.clusterName) with
    | none => .error "error parsing admin kubeconfig secret data"
    | some entry =>
      match w.remoteRouteHost with
      | none => .error "error fetching remote route object"
      | some host => .ok { st with apiURL := entry.2, webConsoleURL := "https://" ++ host }
  else .ok st

/-- Persist the status object only when it differs from the snapshot fetched
at the start of the pass. -/
def statusPersist (st orig : CDStatus) (ops : List StoreOp) : List StoreOp :=
  if st ≠ orig then ops ++ [.updateCDStatus st] else ops

/-- The updateClusterDeploymentStatus convergence: recompute the installed
flag from an observed job, heal a missing kubeconfig secret reference from the
predictable derived name, normalize the kubeconfig secret, derive the URLs,
and persist the status only when changed against the entry snapshot. A missing
kubeconfig secret is tolerated as transient. -/
def updateClusterDeploymentStatus (w : World) (cd : ClusterDeployment)
    (origStatus : CDStatus) (jobOpt : Option Job) : Option String × List StoreOp :=
  let st := statusAfterJobObservation cd.status jobOpt
  let st :=
    if st.installed ∧ st.adminKubeconfigSecret = "" then
      { st with adminKubeconfigSecret := resourceName cd.name "admin-kubeconfig" }
    else st
  if st.adminKubeconfigSecret ≠ "" then
    match findSecret w st.adminKubeconfigSecret with
    | none => (none, statusPersist st origStatus [])
    | some sec =>
      let fixed := fixupAdminKubeconfigSecret sec
      match setAdminKubeconfigStatus w cd st with
      | .error e => (some e, fixed.2)
      | .ok st2 => (none, fixed.2 ++ statusPersist st2 origStatus [])
  else (none, statusPersist st origStatus [])

/-! ### The reconciliation engine -/

/-- The final return of the reconcile pass: honor the expiry requeue time when
one was computed, else done. -/
def finishReconcile (requeueSeconds : Int) (ops : List StoreOp) : RResult × List StoreOp :=
  if requeueSeconds ≠ 0 then (.requeueAfter requeueSeconds, ops) else (.done, ops)

/-- The install-job management and status-convergence tail of the reconcile
pass (the body after the dependency gate, once a terminating install job has
been excluded). When installed the job block is skipped entirely; otherwise
the artifacts are generated, the hash attached, the config artifact ensured,
and either the job is created (first time) or the restart count is recorded
and the generation and hash guards are run, each stopping the pass after a
delete. Ends in status convergence and the expiry requeue. -/
def coreSync (w : World) (cd : ClusterDeployment) (hiveImage releaseImage sshKey : String)
    (existingJob : Option Job) (requeueSeconds : Int) : RResult × List StoreOp :=
  if cd.status.installed then
    match updateClusterDeploymentStatus w cd w.cd.status existingJob with
    | (some e, ops) => (.failed e, ops)
    | (none, ops) => finishReconcile requeueSeconds ops
  else
    match loadSecretData w cd.spec.pullSecretRef dockerConfigJsonKey with
    | none => (.failed "unable to load pull secret from secret", [])
    | some pullSecret =>
      let gen := generateInstallerJob cd hiveImage releaseImage sshKey pullSecret
      let genJob := withHashAnn gen.1 (calculateJobSpecHash gen.1)
      let cfgMap := gen.2
      let cfgOps : List StoreOp :=
        if w.installConfigMapExists then []
        else [.createInstallConfigMap cfgMap.name cd.generation]
      match existingJob with
      | none =>
        let ops := cfgOps ++ [.ensureServiceAccount, .createInstallJob genJob]
        match updateClusterDeploymentStatus w cd w.cd.status none with
        | (some e, stOps) => (.failed e, ops ++ stOps)
        | (none, stOps) => finishReconcile requeueSeconds (ops ++ stOps)
      | some ej =>
        let cdR := { cd with status := { cd.status with installRestarts := w.podRestarts } }
        let genCheck :=
          if ej.anns.isSome then updateOutdatedConfigurations cd.generation ej cfgMap
          else (false, [])
        if genCheck.1 then (.done, cfgOps ++ genCheck.2)
        else
          let hashCheck := deleteJobOnHashChange ej genJob
          if hashCheck.1 then (.done, cfgOps ++ genCheck.2 ++ hashCheck.2)
          else
            match updateClusterDeploymentStatus w cdR w.cd.status (some ej) with
            | (some e, stOps) => (.failed e, cfgOps ++ stOps)
            | (none, stOps) => finishReconcile requeueSeconds (cfgOps ++ stOps)

/-- The delete-after expiry step: parse the annotation (an error stops the
pass), and with a creation timestamp set either issue the delete of the
expired object and stop, or carry the remaining time plus the fixed
sixty-second margin to the end of the pass. -/
def expiryStep (w : World) (cd : ClusterDeployment) :
    Option (RResult × List StoreOp) × Int :=
  match lookupKV cd.anns deleteAfterAnnKey with
  | none => (none, 0)
  | some s =>
    match parseGoDuration s with
    | none => (some (.failed "error parsing delete-after as a duration", []), 0)
    | some dur =>
      match cd.creationTimestamp with
      | none => (none, 0)
      | some created =>
        if created + dur < w.now then (some (.done, [.deleteCD]), 0)
        else (none, (created + dur) - w.now + 60)

/-- The reconcile entry point: wildcard-ingress migration, image-set
resolution, image precedence, the deletion branch, the expiry check, finalizer
attachment, the required SSH key, installer-image resolution, the managed-DNS
dependency gate, the terminating-job wait, and the core sync. -/
def reconcile (w : World) : RResult × List StoreOp :=
  let cd := w.cd
  let migrated := migrateWildcardIngress cd
  if migrated.2 then (.done, [.updateCD migrated.1])
  else
    match getClusterImageSet w cd with
    | (imageSet, isModified, isOps) =>
      if isModified then (.done, isOps)
      else
        let hiveImage := getHiveImage cd imageSet
        let releaseImage := getReleaseImage cd imageSet
        if cd.deletionTimestamp.isSome then
          if hasFinalizer cd then syncDeletedClusterDeployment w cd
          else (.done, [])
        else
          match expiryStep w cd with
          | (some r, _) => r
          | (none, requeueSeconds) =>
            if ¬ hasFinalizer cd then (.done, [.updateCD (addFinalizer cd)])
            else
              match cd.spec.sshKeyRef with
              | none => (.failed "cluster has no ssh key set, unable to launch install", [])
              | some sshRef =>
                match loadSecretData w sshRef sshKeySecretKey with
                | none => (.failed "unable to load ssh key from secret", [])
                | some sshKey =>
                  if cd.status.installerImage = none then
                    resolveInstallerImage w cd imageSet releaseImage hiveImage
                  else
                    let gate : Option (RResult × List StoreOp) :=
                      if cd.spec.manageDNS then
                        match ensureManagedDNSZone w cd with
                        | .error e => some (.failed e, [])
                        | .ok (available, zOps) =>
                          if available then none else some (.done, zOps)
                      else none
                    match gate with
                    | some r => r
                    | none =>
                      match w.installJob with
                      | some ej =>
                        if ej.deletionTimestamp.isSome then
                          (.requeueAfter defaultRequeueSeconds, [])
                        else coreSync w cd hiveImage releaseImage sshKey (some ej) requeueSeconds
                      | none => coreSync w cd hiveImage releaseImage sshKey none requeueSeconds

/-! ### Observations on the emitted store writes -/

/-- Whether a pass wrote a delete of the install job. -/
def hasInstallJobDelete (ops : List StoreOp) : Bool :=
  ops.any (fun o => match o with | .deleteInstallJob _ => true | _ => false)

/-- Whether a pass wrote a create of a deprovision request. -/
def hasDeprovisionCreate (ops : List StoreOp) : Bool :=
  ops.any (fun o => match o with | .createDeprovisionRequest _ => true | _ => false)

/-- Whether a pass wrote a create of the install job. -/
def hasInstallJobCreate (ops : List StoreOp) : Bool :=
  ops.any (fun o => match o with | .createInstallJob _ => true | _ => false)

/-! ### Bundled pipeline-entry conditions used by the theorems -/

/-- Conditions under which the forward path reaches the install-job section:
no wildcard migration fires, no image set is referenced, the object is live,
no delete-after annotation is present, the finalizer is attached, the SSH key
loads, the installer image is resolved and managed DNS is off. -/
def ForwardGates (w : World) : Prop :=
  (migrateWildcardIngress w.cd).2 = false ∧
  w.cd.spec.imageSetRef = none ∧
  w.cd.deletionTimestamp = none ∧
  hasFinalizer w.cd = true ∧
  w.cd.spec.sshKeyRef = some (w.cd.spec.sshKeyRef.getD "") ∧
  (loadSecretData w (w.cd.spec.sshKeyRef.getD "") sshKeySecretKey).isSome = true ∧
  w.cd.status.installerImage.isSome = true ∧
  w.cd.spec.manageDNS = false

instance (w : World) : Decidable (ForwardGates w) := by
  unfold ForwardGates; infer_instance

/-- A kubeconfig secret on which the fix-up is already applied: a raw copy is
present and rewriting the primary key from it changes nothing. -/
def SecretFixed (sec : Secret) : Prop :=
  (lookupKV sec.data rawKubeconfigKey).isSome = true ∧
  setKV sec.data kubeconfigKey
    (fixupKubeconfig ((lookupKV sec.data rawKubeconfigKey).getD "")) = sec.data

instance (sec : Secret) : Decidable (SecretFixed sec) := by
  unfold SecretFixed; infer_instance

/-- A present, non-terminating, named, successful install job. -/
def JobSteady : Option Job → Prop
  | some j => j.deletionTimestamp = none ∧ j.name ≠ "" ∧ j.ns ≠ "" ∧ isSuccessful j = true
  | none => False

instance (o : Option Job) : Decidable (JobSteady o) := by
  cases o <;> (unfold JobSteady; infer_instance)

/-- A present, already-fixed kubeconfig secret. -/
def SecretSteady : Option Secret → Prop
  | some sec => SecretFixed sec
  | none => False

instance (o : Option Secret) : Decidable (SecretSteady o) := by
  cases o <;> (unfold SecretSteady; infer_instance)

/-- A fully-converged, already-installed deployment with an unchanged,
successful, named install job, a healed kubeconfig reference whose secret is
already fixed up, and both URLs set. -/
def SteadyCore (w : World) : Prop :=
  ForwardGates w ∧
  w.cd.status.installed = true ∧
  JobSteady w.installJob ∧
  w.cd.status.adminKubeconfigSecret ≠ "" ∧
  SecretSteady (findSecret w w.cd.status.adminKubeconfigSecret) ∧
  w.cd.status.apiURL ≠ "" ∧
  w.cd.status.webConsoleURL ≠ ""

instance (w : World) : Decidable (SteadyCore w) := by
  unfold SteadyCore; infer_instance

/-- The generated, hash-annotated install job of the forward path as a
function of the world, with the secret loads defaulted (their success is a
hypothesis of the theorems that use this). -/
def forwardGenJob (w : World) : Job :=
  let cd := w.cd
  let imageSet := (getClusterImageSet w cd).1
  let gen := generateInstallerJob cd (getHiveImage cd imageSet) (getReleaseImage cd imageSet)
    ((loadSecretData w (cd.spec.sshKeyRef.getD "") sshKeySecretKey).getD "")
    ((loadSecretData w cd.spec.pullSecretRef dockerConfigJsonKey).getD "")
  withHashAnn gen.1 (calculateJobSpecHash gen.1)

/-- Conditions of the first pass of the hash-recreation example: the forward
path reaches an existing, not-yet-installed, non-terminating install job whose
hash annotation is absent, whose generation annotation (if an annotation map
exists at all) is absent, with the config artifact already present. The last
clause is the strconv roundtrip fact for the stamped generation (true of the
Go standard library but outside this embedding). -/
def C2FirstPass (w : World) (ej : Job) : Prop :=
  ForwardGates w ∧
  lookupKV w.cd.anns deleteAfterAnnKey = none ∧
  w.cd.status.installed = false ∧
  (loadSecretData w w.cd.spec.pullSecretRef dockerConfigJsonKey).isSome = true ∧
  w.installConfigMapExists = true ∧
  w.installJob = some ej ∧
  ej.deletionTimestamp = none ∧
  jobAnn ej jobHashAnnKey = none ∧
  (ej.anns.isSome = true → jobAnn ej generationAnnKey = none) ∧
  parseGoInt (toString w.cd.generation) = w.cd.generation

instance (w : World) (ej : Job) : Decidable (C2FirstPass w ej) := by
  unfold C2FirstPass; infer_instance

/-- Conditions of the second pass of the hash-recreation example: the forward
path with no install job left, the config artifact present, and a status that
converges without a write. -/
def C2SecondPass (w : World) : Prop :=
  ForwardGates w ∧
  lookupKV w.cd.anns deleteAfterAnnKey = none ∧
  w.cd.status.installed = false ∧
  (loadSecretData w w.cd.spec.pullSecretRef dockerConfigJsonKey).isSome = true ∧
  w.installConfigMapExists = true ∧
  w.installJob = none ∧
  w.cd.status.adminKubeconfigSecret = ""

instance (w : World) : Decidable (C2SecondPass w) := by
  unfold C2SecondPass; infer_instance

/-- An installed deployment whose install job is gone and whose kubeconfig
secret reference is set but the secret does not exist yet (tolerated). -/
def InstalledNoJob (w : World) : Prop :=
  ForwardGates w ∧
  lookupKV w.cd.anns deleteAfterAnnKey = none ∧
  w.cd.status.installed = true ∧
  w.installJob = none ∧
  w.cd.status.adminKubeconfigSecret ≠ "" ∧
  findSecret w w.cd.status.adminKubeconfigSecret = none

instance (w : World) : Decidable (InstalledNoJob w) := by
  unfold InstalledNoJob; infer_instance

/-! ### Concrete fixtures for witnesses and counterexamples -/

def testSpec : CDSpec :=
  { clusterName := "bar", baseDomain := "clusters.example.com",
    ingress := [],
    images := { hiveImage := "hive-image", releaseImage := "release-image", installerImage := "" },
    imageSetRef := none, sshKeyRef := some "ssh-key", pullSecretRef := "pull-secret",
    manageDNS := false, preserveOnDelete := false,
    platformAWS := some { region := "us-east-1", userTags := [] },
    platformSecretsAWS := some "aws-credentials" }

def testStatus : CDStatus :=
  { installed := false, installerImage := some "installer-image",
    infraID := "", clusterID := "", installRestarts := 0,
    adminKubeconfigSecret := "", apiURL := "", webConsoleURL := "", conditions := [] }

def testCD : ClusterDeployment :=
  { name := "foo", ns := "default", generation := 1,
    creationTimestamp := some 0, deletionTimestamp := none,
    finalizers := [finalizerDeprovision], anns := [],
    spec := testSpec, status := testStatus }

def sshSecret : Secret := { name := "ssh-key", data := [(sshKeySecretKey, "fakesshkey")] }

def pullSecretObj : Secret := { name := "pull-secret", data := [(dockerConfigJsonKey, "pulldata")] }

def kcSecret : Secret :=
  { name := "kc",
    data := [(kubeconfigKey, fixupKubeconfig "rawbytes"), (rawKubeconfigKey, "rawbytes")] }

def baseWorld : World :=
  { now := 100, cd := testCD, installJob := none, imagesetJob := none,
    dnsZone := none, deprovisionRequest := none, installConfigMapExists := false,
    imageSets := [], secrets := [sshSecret, pullSecretObj, kcSecret], podRestarts := 0,
    kubeClusters := [("bar", "https://bar-api.example.com:6443")],
    remoteRouteHost := some "console.apps.example.com" }

/-- A running install job with a nil annotation map (predates hash tracking). -/
def runningJob : Job :=
  { name := "foo-install", ns := "default", deletionTimestamp := none,
    anns := none, succeeded := 0, complete := false, failedCond := false,
    startTime := 0, completionTime := 0, payload := "old-payload" }

def terminatingJob : Job := { runningJob with deletionTimestamp := some 60 }

def successJob : Job :=
  { runningJob with
    anns := some []
    complete := true
    succeeded := 1
    startTime := 10
    completionTime := 40 }

/-- A named, observed install job that does not report success. -/
def failedNamedJob : Job := { runningJob with anns := some [] }

def liveZone : DNSZone :=
  { name := dnsZoneName "foo", ns := "default", deletionTimestamp := none,
    zone := "clusters.example.com", linkToParentDomain := true,
    awsAccountSecret := "aws-credentials", awsRegion := "us-east-1",
    awsTags := [], conditions := [] }

/-- A deleting ClusterDeployment with a recorded infra identifier. -/
def delCD : ClusterDeployment :=
  { testCD with
    deletionTimestamp := some 50
    status := { testStatus with infraID := "test-infra-id" } }

def delWorld : World := { baseWorld with cd := delCD }

/-- Counterexample world for the deletion-ordering claim: managed DNS with the
zone still live intervenes before the install-job teardown. -/
def c1CexWorld : World :=
  { delWorld with
    cd := { delCD with spec := { testSpec with manageDNS := true } }
    dnsZone := some liveZone
    installJob := some runningJob }

def c1WitWorld : World := { delWorld with installJob := some runningJob }

def c3aWorld : World :=
  { delWorld with
    cd := { delCD with
      spec := { testSpec with preserveOnDelete := true }
      status := { delCD.status with installed := true } } }

def c3bWorld : World :=
  { delWorld with
    cd := { delCD with spec := { testSpec with preserveOnDelete := true } } }

/-- Counterexample world for the installed-flag claim: installed is true while
a named, non-successful install job is observed. -/
def c4CexWorld : World :=
  { baseWorld with
    cd := { testCD with status := { testStatus with installed := true } }
    installJob := some failedNamedJob }

def c4WitWorld : World :=
  { baseWorld with
    cd := { testCD with status :=
      { testStatus with installed := true, adminKubeconfigSecret := "missing-kc" } } }

/-- Counterexample world for the finalizer-only-pass claim: a wildcard ingress
entry makes the migration step fire instead of the finalizer attach. -/
def c5CexWorld : World :=
  { baseWorld with
    cd := { testCD with
      finalizers := []
      spec := { testSpec with ingress := [{ name := "default", domain := "*.apps.example.com" }] } } }

def c5WitWorld : World := { baseWorld with cd := { testCD with finalizers := [] } }

def c6WitCD : ClusterDeployment :=
  { testCD with spec := { testSpec with ingress :=
      [{ name := "default", domain := "*.apps.example.com" },
       { name := "extra", domain := "apps.example.com" }] } }

def c6WitWorld : World := { baseWorld with cd := c6WitCD }

def expiredWorld : World :=
  { baseWorld with
    cd := { testCD with anns := [(deleteAfterAnnKey, "5m")] }
    now := 3600 }

def steadyStatus : CDStatus :=
  { installed := true, installerImage := some "installer-image",
    infraID := "test-infra-id", clusterID := "test-cluster-id", installRestarts := 0,
    adminKubeconfigSecret := "kc", apiURL := "https://bar-api.example.com:6443",
    webConsoleURL := "https://console.apps.example.com", conditions := [] }

def steadyWorld : World :=
  { baseWorld with
    cd := { testCD with status := steadyStatus }
    installJob := some successJob
    installConfigMapExists := true }

def c7SteadyAnnWorld : World :=
  { steadyWorld with
    cd := { steadyWorld.cd with anns := [(deleteAfterAnnKey, "5m")] } }

/-- Failing input for the terminating-resolver-job claim: the resolver job is
mid-deletion and finished, with the installer image still unresolved. -/
def c8ImagesetWorld : World :=
  { baseWorld with
    cd := { testCD with status := { testStatus with installerImage := none } }
    imagesetJob := some
      { name := resourceName "foo" "imageset", ns := "default",
        deletionTimestamp := some 70, anns := some [], succeeded := 1,
        complete := true, failedCond := false, startTime := 0, completionTime := 30,
        payload := "imageset-payload" } }

def c8WaitWorld : World := { baseWorld with installJob := some terminatingJob }

def c2FirstWorld : World :=
  { baseWorld with installJob := some runningJob, installConfigMapExists := true }

def c2SecondWorld : World := { baseWorld with installConfigMapExists := true }

def c10World : World :=
  { baseWorld with
    cd := { testCD with spec := { testSpec with manageDNS := true, platformAWS := none } } }

/-! ## Helper lemmas shared by the claim theorems -/

theorem hasDeprovisionCreate_append (a b : List StoreOp) :
    hasDeprovisionCreate (a ++ b) = (hasDeprovisionCreate a || hasDeprovisionCreate b) := by
  simp [hasDeprovisionCreate, List.any_append]

theorem hasInstallJobDelete_append (a b : List StoreOp) :
    hasInstallJobDelete (a ++ b) = (hasInstallJobDelete a || hasInstallJobDelete b) := by
  simp [hasInstallJobDelete, List.any_append]

theorem hasDeprovisionCreate_nil : hasDeprovisionCreate [] = false := rfl

theorem hasInstallJobDelete_nil : hasInstallJobDelete [] = false := rfl

theorem statusPersist_no_deprovision (st orig : CDStatus) (ops : List StoreOp) :
    hasDeprovisionCreate (statusPersist st orig ops) = hasDeprovisionCreate ops := by
  unfold statusPersist
  split <;> simp [hasDeprovisionCreate_append, hasDeprovisionCreate]

theorem fixup_no_deprovision (sec : Secret) :
    hasDeprovisionCreate (fixupAdminKubeconfigSecret sec).2 = false := by
  unfold fixupAdminKubeconfigSecret
  dsimp only
  repeat' split
  all_goals simp [hasDeprovisionCreate]

theorem updateStatus_no_deprovision (w : World) (cd : ClusterDeployment)
    (orig : CDStatus) (jobOpt : Option Job) :
    hasDeprovisionCreate (updateClusterDeploymentStatus w cd orig jobOpt).2 = false := by
  unfold updateClusterDeploymentStatus
  dsimp only
  repeat' split
  all_goals
    simp [statusPersist_no_deprovision, fixup_no_deprovision,
      hasDeprovisionCreate_append, hasDeprovisionCreate_nil]

theorem outdated_no_deprovision (g : Int) (ej : Job) (cm : InstallCfgMap) :
    hasDeprovisionCreate (updateOutdatedConfigurations g ej cm).2 = false := by
  unfold updateOutdatedConfigurations
  dsimp only
  repeat' split
  all_goals simp [hasDeprovisionCreate_append, hasDeprovisionCreate]

theorem hashChange_no_deprovision (ej gj : Job) :
    hasDeprovisionCreate (deleteJobOnHashChange ej gj).2 = false := by
  unfold deleteJobOnHashChange
  dsimp only
  repeat' split
  all_goals simp [hasDeprovisionCreate]

theorem no_dep_ite {c : Prop} [Decidable c] {a b : List StoreOp}
    (ha : hasDeprovisionCreate a = false) (hb : hasDeprovisionCreate b = false) :
    hasDeprovisionCreate (if c then a else b) = false := by
  split <;> assumption

theorem no_dep_append {a b : List StoreOp}
    (ha : hasDeprovisionCreate a = false) (hb : hasDeprovisionCreate b = false) :
    hasDeprovisionCreate (a ++ b) = false := by
  rw [hasDeprovisionCreate_append, ha, hb]; rfl

theorem finishReconcile_snd (rq : Int) (ops : List StoreOp) :
    (finishReconcile rq ops).2 = ops := by
  unfold finishReconcile; split <;> rfl

theorem no_dep_cfgOps (c : Prop) [Decidable c] (name : String) (g : Int) :
    hasDeprovisionCreate
      (if c then [] else [StoreOp.createInstallConfigMap name g]) = false := by
  split <;> rfl

theorem no_dep_createList (j : Job) :
    hasDeprovisionCreate [StoreOp.ensureServiceAccount, StoreOp.createInstallJob j] = false := rfl

theorem coreSync_no_deprovision (w : World) (cd : ClusterDeployment)
    (hi ri sk : String) (ejOpt : Option Job) (rq : Int) :
    hasDeprovisionCreate (coreSync w cd hi ri sk ejOpt rq).2 = false := by
  unfold coreSync
  dsimp only
  split
  · rcases hu : updateClusterDeploymentStatus w cd w.cd.status ejOpt with ⟨e?, ops⟩
    have hops := updateStatus_no_deprovision w cd w.cd.status ejOpt
    rw [hu] at hops
    cases e? <;> simp only [finishReconcile_snd] <;> exact hops
  · split
    · rfl
    · rename_i pullSecret hpull
      cases ejOpt with
      | none =>
        try dsimp only
        rcases hu : updateClusterDeploymentStatus w cd w.cd.status none with ⟨e?, ops⟩
        have hops := updateStatus_no_deprovision w cd w.cd.status none
        rw [hu] at hops
        replace hops : hasDeprovisionCreate ops = false := hops
        cases e? <;>
          simp only [finishReconcile_snd, hasDeprovisionCreate_append, no_dep_cfgOps,
            no_dep_createList, hops, Bool.false_or, Bool.or_false]
      | some ej =>
        try dsimp only
        rcases hu : updateClusterDeploymentStatus w
            { cd with status := { cd.status with installRestarts := w.podRestarts } }
            w.cd.status (some ej) with ⟨e?, ops⟩
        have hops := updateStatus_no_deprovision w
            { cd with status := { cd.status with installRestarts := w.podRestarts } }
            w.cd.status (some ej)
        rw [hu] at hops
        replace hops : hasDeprovisionCreate ops = false := hops
        cases e? <;>
          (repeat' split) <;>
          simp only [finishReconcile_snd, hasDeprovisionCreate_append, no_dep_cfgOps,
            no_dep_createList, hasDeprovisionCreate_nil, outdated_no_deprovision,
            hashChange_no_deprovision, hops, Bool.false_or, Bool.or_false] <;>
          first
          | rfl
          | simp_all [hasDeprovisionCreate]

theorem resolveImage_no_ops (w : World) (cd : ClusterDeployment)
    (is : Option ClusterImageSet) (ri hi : String) :
    hasDeprovisionCreate (resolveInstallerImage w cd is ri hi).2 = false ∧
    hasInstallJobDelete (resolveInstallerImage w cd is ri hi).2 = false := by
  unfold resolveInstallerImage
  dsimp only
  repeat' split
  all_goals simp [hasDeprovisionCreate, hasInstallJobDelete]

theorem imageSet_no_ops (w : World) (cd : ClusterDeployment) :
    hasDeprovisionCreate (getClusterImageSet w cd).2.2 = false ∧
    hasInstallJobDelete (getClusterImageSet w cd).2.2 = false := by
  unfold getClusterImageSet
  dsimp only
  repeat' split
  all_goals simp [hasDeprovisionCreate, hasInstallJobDelete]

theorem syncDeleted_excl (w : World) (cd : ClusterDeployment) :
    (hasInstallJobDelete (syncDeletedClusterDeployment w cd).2 &&
      hasDeprovisionCreate (syncDeletedClusterDeployment w cd).2) = false := by
  unfold syncDeletedClusterDeployment ensureManagedDNSZoneDeleted
  try dsimp only
  repeat' split
  all_goals
    first
    | rfl
    | skip
  all_goals
    (rename_i r heq
     repeat' split at heq
     all_goals
       first
       | (cases heq; rfl)
       | cases heq)

theorem expiry_no_dep (w : World) (cd : ClusterDeployment) {r : RResult × List StoreOp}
    (h : (expiryStep w cd).1 = some r) : hasDeprovisionCreate r.2 = false := by
  unfold expiryStep at h
  repeat' split at h
  all_goals first
    | (replace h := Option.some.inj h; subst h; rfl)
    | exact absurd h (by simp)

theorem zone_no_dep (w : World) (cd : ClusterDeployment) {b : Bool} {ops : List StoreOp}
    (h : ensureManagedDNSZone w cd = .ok (b, ops)) : hasDeprovisionCreate ops = false := by
  unfold ensureManagedDNSZone at h
  repeat' split at h
  all_goals first
    | (replace h := congrArg Prod.snd (Except.ok.inj h); try dsimp only at h;
       rw [← h]; rfl)
    | exact absurd h (by simp)

/-- In no reconciliation pass do an install-job delete and a
deprovision-request create both occur. -/
theorem reconcile_excl (w : World) :
    (hasInstallJobDelete (reconcile w).2 &&
      hasDeprovisionCreate (reconcile w).2) = false := by
  have hBoth : ∀ ops, hasDeprovisionCreate ops = false →
      (hasInstallJobDelete ops && hasDeprovisionCreate ops) = false := by
    intro ops h; rw [h, Bool.and_false]
  unfold reconcile
  dsimp only
  split
  · exact hBoth _ rfl
  rcases hgis : getClusterImageSet w w.cd with ⟨imageSet, isModified, isOps⟩
  have hisOps : hasDeprovisionCreate isOps = false := by
    have h := (imageSet_no_ops w w.cd).1
    rw [hgis] at h; exact h
  try dsimp only
  split
  · exact hBoth _ hisOps
  split
  · split
    · exact syncDeleted_excl w w.cd
    · exact hBoth _ rfl
  rcases hexp : expiryStep w w.cd with ⟨r?, rqs⟩
  try dsimp only
  cases r? with
  | some r =>
    exact hBoth _ (expiry_no_dep w w.cd (by rw [hexp]))
  | none =>
    try dsimp only
    repeat' split
    all_goals
      first
      | exact hBoth _ rfl
      | exact hBoth _ (resolveImage_no_ops w w.cd _ _ _).1
      | exact hBoth _ (coreSync_no_deprovision w w.cd _ _ _ _ _)
      | skip
    all_goals
      (rename_i r heq
       refine hBoth _ ?_
       repeat' split at heq
       all_goals
         first
         | (cases heq; rfl)
         | (cases heq; exact zone_no_dep w w.cd (by assumption))
         | cases heq)

theorem wildcard_prepend {d : String} (h : isWildcardDomain d = true) :
    "*." ++ stripWildcard d = d := by
  rcases d with ⟨l⟩
  unfold isWildcardDomain at h
  split at h
  · rename_i rest hl
    simp only at hl
    subst hl
    rfl
  · exact Bool.noConfusion h

theorem stripWildcard_eq_self {d : String} (h : isWildcardDomain d = false) :
    stripWildcard d = d := by
  unfold isWildcardDomain at h
  unfold stripWildcard
  split at h
  · exact Bool.noConfusion h
  · rfl

theorem migrate_nowildcard {cd : ClusterDeployment}
    (h : ∀ e ∈ cd.spec.ingress, isWildcardDomain e.domain = false) :
    migrateWildcardIngress cd = (cd, false) := by
  have hmapped : ∀ l : List Ingress, (∀ e ∈ l, isWildcardDomain e.domain = false) →
      l.map (fun e => { e with domain := stripWildcard e.domain }) = l := by
    intro l hl
    induction l with
    | nil => rfl
    | cons a t ih =>
      simp only [List.map_cons]
      rw [stripWildcard_eq_self (hl a (by simp))]
      rw [ih (fun e he => hl e (by simp [he]))]
  unfold migrateWildcardIngress
  rw [hmapped cd.spec.ingress h]
  simp

theorem fixup_fixed {sec : Secret} (h : SecretFixed sec) :
    fixupAdminKubeconfigSecret sec = (sec, []) := by
  obtain ⟨hraw, hset⟩ := h
  obtain ⟨raw, hraw2⟩ := Option.isSome_iff_exists.mp hraw
  rw [hraw2] at hset
  simp only [Option.getD_some] at hset
  unfold fixupAdminKubeconfigSecret
  rw [hraw2]
  simp [hset]

/-- The status-convergence call performs no write on a steady deployment with
a successful named job observed and an already-fixed kubeconfig secret. -/
theorem updateStatus_steady (w : World) (j : Job) (sec : Secret)
    (hinst : w.cd.status.installed = true)
    (hjn : j.name ≠ "") (hjns : j.ns ≠ "") (hjsucc : isSuccessful j = true)
    (hadmin : w.cd.status.adminKubeconfigSecret ≠ "")
    (hs : findSecret w w.cd.status.adminKubeconfigSecret = some sec)
    (hfx : SecretFixed sec)
    (hapi : w.cd.status.apiURL ≠ "") (hweb : w.cd.status.webConsoleURL ≠ "") :
    updateClusterDeploymentStatus w w.cd w.cd.status (some j) = (none, []) := by
  have hjc : j.complete = true := hjsucc
  have hst : statusAfterJobObservation w.cd.status (some j) = w.cd.status := by
    unfold statusAfterJobObservation
    dsimp only
    rw [if_pos ⟨hjn, hjns⟩]
    unfold isSuccessful
    rw [hjc, ← hinst]
  have hset : setAdminKubeconfigStatus w w.cd w.cd.status = .ok w.cd.status := by
    unfold setAdminKubeconfigStatus
    rw [if_neg (by rintro (hc | hc) <;> [exact hweb hc; exact hapi hc])]
  have hheal : ¬(w.cd.status.installed = true ∧ w.cd.status.adminKubeconfigSecret = "") :=
    fun hc => hadmin hc.2
  unfold updateClusterDeploymentStatus
  rw [hst]
  dsimp only
  rw [if_neg hheal]
  rw [if_pos hadmin]
  rw [hs]
  dsimp only
  rw [fixup_fixed hfx, hset]
  simp [statusPersist]

/-- On a steady world the whole pass reduces to the expiry requeue decision
with no writes. -/
theorem steady_reconcile (w : World) (h : SteadyCore w) (rq : Int)
    (hexp2 : expiryStep w w.cd = (none, rq)) :
    reconcile w = finishReconcile rq [] := by
  obtain ⟨⟨hmig, his, hdel, hfin, hsshr, hsshl, himg, hdns⟩,
    hinst, hjob, hadmin, hsec, hapi, hweb⟩ := h
  rcases hj : w.installJob with _ | j
  · rw [hj] at hjob; exact absurd hjob (by simp [JobSteady])
  rw [hj] at hjob
  obtain ⟨hjdt, hjn, hjns, hjsucc⟩ := hjob
  rcases hs : findSecret w w.cd.status.adminKubeconfigSecret with _ | sec
  · rw [hs] at hsec; exact absurd hsec (by simp [SecretSteady])
  rw [hs] at hsec
  have hupd := updateStatus_steady w j sec hinst hjn hjns hjsucc hadmin hs hsec hapi hweb
  have hgis : getClusterImageSet w w.cd = (none, false, []) := by
    unfold getClusterImageSet; rw [his]
  obtain ⟨img, himg2⟩ := Option.isSome_iff_exists.mp himg
  generalize hk : w.cd.spec.sshKeyRef.getD "" = k at hsshr hsshl
  obtain ⟨sshKey, hkey2⟩ := Option.isSome_iff_exists.mp hsshl
  unfold reconcile
  dsimp only
  simp [hmig, hgis, hdel, hexp2, hfin, hsshr, hkey2, himg2, hdns, hj, hjdt,
    coreSync, hinst, hupd]

/-! ## Claim theorems -/

/-- C1 (amended): for every ClusterDeployment with deletion-timestamp set and
the deprovision finalizer present whose pass reaches the deletion workflow (no
wildcard migration and no image-set lookup intervenes), if a non-terminating
install job still exists and the managed-DNS teardown step does not intervene
(manageDNS unset or the zone already gone), the pass deletes exactly that job
(foreground cascade) and stops with no other write; and in no reconciliation
pass do install-job deletion and deprovision-request creation both occur. -/
theorem c1_deletion_ordering (w : World) (j : Job)
    (hmig : (migrateWildcardIngress w.cd).2 = false)
    (his : w.cd.spec.imageSetRef = none)
    (hdel : w.cd.deletionTimestamp.isSome = true)
    (hfin : hasFinalizer w.cd = true)
    (hgate : w.cd.spec.manageDNS = false ∨ w.dnsZone = none)
    (hjob : w.installJob = some j)
    (hlive : j.deletionTimestamp = none) :
    reconcile w = (.done, [.deleteInstallJob j.name]) ∧
    ∀ w0 : World,
      (hasInstallJobDelete (reconcile w0).2 &&
        hasDeprovisionCreate (reconcile w0).2) = false := by
  constructor
  · have hgis : getClusterImageSet w w.cd = (none, false, []) := by
      unfold getClusterImageSet; rw [his]
    have hz : ensureManagedDNSZoneDeleted w w.cd = none := by
      unfold ensureManagedDNSZoneDeleted
      rcases hgate with h | h
      · rw [h]; rfl
      · split
        · rw [h]
        · rfl
    simp [reconcile, hmig, hgis, hdel, hfin,
      syncDeletedClusterDeployment, hz, hjob, hlive]
  · exact fun w0 => reconcile_excl w0

/-- Witness for C1: a concrete deleting deployment with a live install job and
no managed zone has exactly that job deleted by the pass. -/
theorem c1_deletion_ordering_witness :
    reconcile c1WitWorld = (.done, [.deleteInstallJob "foo-install"]) :=
  (c1_deletion_ordering c1WitWorld runningJob (by decide) (by decide) (by decide)
    (by decide) (Or.inr (by decide)) (by decide) (by decide)).1

/-- Counterexample for C1 as frozen: a deleting deployment with the finalizer,
a non-terminating install job, manageDNS set and its zone still live has the
zone force-deleted by the pass while the install job is not deleted. -/
theorem c1_counterexample :
    c1CexWorld.cd.deletionTimestamp.isSome = true ∧
    hasFinalizer c1CexWorld.cd = true ∧
    c1CexWorld.installJob = some runningJob ∧
    runningJob.deletionTimestamp = none ∧
    reconcile c1CexWorld = (.done, [.deleteDNSZone (dnsZoneName "foo")]) ∧
    hasInstallJobDelete (reconcile c1CexWorld).2 = false := by
  decide

/-- C3: in the deletion workflow with no remaining install job or DNS zone,
preserveOnDelete with installed set removes the finalizer directly and creates
no deprovision request; preserveOnDelete with installed unset and a recorded
infra identifier creates the deprovision request despite the flag. -/
theorem c3_preserve_on_delete (w : World) (cd : ClusterDeployment)
    (hjob : w.installJob = none)
    (hzone : w.dnsZone = none)
    (hpre : cd.spec.preserveOnDelete = true) :
    (cd.status.installed = true → hasFinalizer cd = true →
      syncDeletedClusterDeployment w cd = (.done, [.updateCD (removeFinalizer cd)]) ∧
      hasDeprovisionCreate (syncDeletedClusterDeployment w cd).2 = false) ∧
    (cd.status.installed = false → cd.status.infraID ≠ "" → w.deprovisionRequest = none →
      syncDeletedClusterDeployment w cd
        = (.done, [.createDeprovisionRequest (generateDeprovisionRequest cd)])) := by
  have hz : ensureManagedDNSZoneDeleted w cd = none := by
    unfold ensureManagedDNSZoneDeleted
    split
    · rw [hzone]
    · rfl
  constructor
  · intro hinst hfin
    have he : syncDeletedClusterDeployment w cd
        = (.done, [.updateCD (removeFinalizer cd)]) := by
      simp [syncDeletedClusterDeployment, hz, hjob, hpre, hinst, hfin]
    exact ⟨he, by rw [he]; rfl⟩
  · intro hinst hinfra hreq
    simp [syncDeletedClusterDeployment, hz, hjob, hpre, hinst, hinfra, hreq]

/-- Witness for C3: concrete deleting deployments exercising both branches. -/
theorem c3_preserve_on_delete_witness :
    syncDeletedClusterDeployment c3aWorld c3aWorld.cd
      = (.done, [.updateCD (removeFinalizer c3aWorld.cd)]) ∧
    syncDeletedClusterDeployment c3bWorld c3bWorld.cd
      = (.done, [.createDeprovisionRequest (generateDeprovisionRequest c3bWorld.cd)]) :=
  ⟨((c3_preserve_on_delete c3aWorld c3aWorld.cd (by decide) (by decide) (by decide)).1
      (by decide) (by decide)).1,
   (c3_preserve_on_delete c3bWorld c3bWorld.cd (by decide) (by decide) (by decide)).2
      (by decide) (by decide) (by decide)⟩

/-- C6: the wildcard-ingress migration strips exactly one leading star-dot
from each wildcard entry, leaves non-wildcard entries unchanged, never mutates
a deployment with zero wildcard entries, and when it fires the pass persists
the migrated object and returns done with no further work. -/
theorem c6_wildcard_migration :
    (∀ d : String, isWildcardDomain d = true → "*." ++ stripWildcard d = d) ∧
    (∀ d : String, isWildcardDomain d = false → stripWildcard d = d) ∧
    (∀ cd : ClusterDeployment,
      (migrateWildcardIngress cd).1.spec.ingress
        = cd.spec.ingress.map (fun e => { e with domain := stripWildcard e.domain })) ∧
    (∀ cd : ClusterDeployment,
      (∀ e ∈ cd.spec.ingress, isWildcardDomain e.domain = false) →
      migrateWildcardIngress cd = (cd, false)) ∧
    (∀ w : World, (migrateWildcardIngress w.cd).2 = true →
      reconcile w = (.done, [.updateCD (migrateWildcardIngress w.cd).1])) := by
  refine ⟨fun d h => wildcard_prepend h, fun d h => stripWildcard_eq_self h,
    fun cd => rfl, fun cd h => migrate_nowildcard h, fun w h => ?_⟩
  unfold reconcile
  dsimp only
  rw [h]
  rfl

/-- Witness for C6: a concrete wildcard entry is stripped, a non-wildcard
entry is untouched, and the migrating pass persists the object and stops. -/
theorem c6_wildcard_migration_witness :
    ("*." ++ stripWildcard "*.apps.example.com" = "*.apps.example.com") ∧
    (stripWildcard "apps.example.com" = "apps.example.com") ∧
    (migrateWildcardIngress testCD = (testCD, false)) ∧
    reconcile c6WitWorld = (.done, [.updateCD (migrateWildcardIngress c6WitWorld.cd).1]) :=
  ⟨c6_wildcard_migration.1 _ (by decide),
   c6_wildcard_migration.2.1 _ (by decide),
   c6_wildcard_migration.2.2.2.1 testCD (by decide),
   c6_wildcard_migration.2.2.2.2 c6WitWorld (by decide)⟩

/-- C10: with manageDNS set and a non-AWS platform or platform secret, the
dependency-gate check errors, creates no DNS zone, and the pass aborts with
that error. -/
theorem c10_managed_dns_aws_only (w : World)
    (hmig : (migrateWildcardIngress w.cd).2 = false)
    (his : w.cd.spec.imageSetRef = none)
    (hdel : w.cd.deletionTimestamp = none)
    (hann : lookupKV w.cd.anns deleteAfterAnnKey = none)
    (hfin : hasFinalizer w.cd = true)
    (hssh : w.cd.spec.sshKeyRef = some (w.cd.spec.sshKeyRef.getD ""))
    (hkey : (loadSecretData w (w.cd.spec.sshKeyRef.getD "") sshKeySecretKey).isSome = true)
    (himg : w.cd.status.installerImage.isSome = true)
    (hdns : w.cd.spec.manageDNS = true)
    (hplat : w.cd.spec.platformAWS = none ∨ w.cd.spec.platformSecretsAWS = none) :
    reconcile w = (.failed "only AWS managed DNS is supported", []) := by
  have hkey2 := hkey
  obtain ⟨img, himg2⟩ := Option.isSome_iff_exists.mp himg
  have hgis : getClusterImageSet w w.cd = (none, false, []) := by
    unfold getClusterImageSet; rw [his]
  have hexp : expiryStep w w.cd = (none, 0) := by
    unfold expiryStep; rw [hann]
  have hz : ensureManagedDNSZone w w.cd = .error "only AWS managed DNS is supported" := by
    unfold ensureManagedDNSZone
    rcases hplat with h | h
    · rw [h]
    · rcases hp1 : w.cd.spec.platformAWS with _ | a
      · rfl
      · rw [h]
  generalize hgen : w.cd.spec.sshKeyRef.getD "" = k at hssh hkey2
  obtain ⟨sshKey2, hkey3⟩ := Option.isSome_iff_exists.mp hkey2
  unfold reconcile
  dsimp only
  simp [hmig, hgis, hdel, hexp, hfin, hssh, hkey3, himg2, hdns, hz]

/-- Witness for C10: a concrete manageDNS deployment without an AWS platform
aborts with the managed-DNS error and no zone create. -/
theorem c10_managed_dns_aws_only_witness :
    reconcile c10World = (.failed "only AWS managed DNS is supported", []) :=
  c10_managed_dns_aws_only c10World (by decide) (by decide) (by decide) (by decide)
    (by decide) (by decide) (by decide) (by decide) (by decide) (Or.inl (by decide))

/-- C5 (amended): for every ClusterDeployment with no deprovision finalizer
and no deletion-timestamp that passes the earlier steps without effect (no
wildcard ingress migration, no image-set status modification, and no elapsed
or unparseable delete-after annotation), one reconciliation pass performs
exactly one write: an update of the object that differs only in its finalizer
list, with no child resource created, updated or deleted. -/
theorem c5_finalizer_only_pass (w : World)
    (hmig : (migrateWildcardIngress w.cd).2 = false)
    (hmod : (getClusterImageSet w w.cd).2.1 = false)
    (hdel : w.cd.deletionTimestamp = none)
    (hexp : (expiryStep w w.cd).1 = none)
    (hfin : hasFinalizer w.cd = false) :
    reconcile w = (.done, [.updateCD (addFinalizer w.cd)]) ∧
    (addFinalizer w.cd).name = w.cd.name ∧
    (addFinalizer w.cd).ns = w.cd.ns ∧
    (addFinalizer w.cd).generation = w.cd.generation ∧
    (addFinalizer w.cd).creationTimestamp = w.cd.creationTimestamp ∧
    (addFinalizer w.cd).deletionTimestamp = w.cd.deletionTimestamp ∧
    (addFinalizer w.cd).anns = w.cd.anns ∧
    (addFinalizer w.cd).spec = w.cd.spec ∧
    (addFinalizer w.cd).status = w.cd.status ∧
    (addFinalizer w.cd).finalizers = w.cd.finalizers ++ [finalizerDeprovision] := by
  refine ⟨?_, ?_, ?_, ?_, ?_, ?_, ?_, ?_, ?_, ?_⟩
  case _ =>
    rcases hgis : getClusterImageSet w w.cd with ⟨is, mod, ops⟩
    have hmod2 : mod = false := by rw [hgis] at hmod; exact hmod
    subst hmod2
    rcases hexp2 : expiryStep w w.cd with ⟨r?, rq⟩
    have hr : r? = none := by rw [hexp2] at hexp; exact hexp
    subst hr
    unfold reconcile
    dsimp only
    simp [hmig, hgis, hexp2, hdel, hfin]
  all_goals simp [addFinalizer, hfin]

/-- Witness for C5 (amended): a concrete finalizer-less deployment gets
exactly the finalizer-attaching update. -/
theorem c5_finalizer_only_pass_witness :
    reconcile c5WitWorld = (.done, [.updateCD (addFinalizer c5WitWorld.cd)]) :=
  (c5_finalizer_only_pass c5WitWorld (by decide) (by decide) (by decide) (by decide)
    (by decide)).1

/-- Counterexample for C5 as frozen: a finalizer-less live deployment with a
wildcard ingress entry is migrated instead — the single write changes the spec
and leaves the finalizer absent. -/
theorem c5_counterexample :
    hasFinalizer c5CexWorld.cd = false ∧
    c5CexWorld.cd.deletionTimestamp = none ∧
    reconcile c5CexWorld = (.done, [.updateCD (migrateWildcardIngress c5CexWorld.cd).1]) ∧
    hasFinalizer (migrateWildcardIngress c5CexWorld.cd).1 = false ∧
    (migrateWildcardIngress c5CexWorld.cd).1.spec ≠ c5CexWorld.cd.spec := by
  decide

/-- C7: a live deployment whose delete-after annotation parses and whose
creation time plus that duration lies in the past is deleted by the observing
pass, which stops; when not yet elapsed, a pass that completes normally on a
steady deployment returns a requeue-after of the remaining time plus the
fixed sixty-second margin. -/
theorem expiryStep_parsed (w : World) (s : String) (dur created : Int)
    (hann : lookupKV w.cd.anns deleteAfterAnnKey = some s)
    (hdur : parseGoDuration s = some dur)
    (hct : w.cd.creationTimestamp = some created) :
    expiryStep w w.cd =
      (if created + dur < w.now then (some (.done, [.deleteCD]), 0)
       else (none, created + dur - w.now + 60)) := by
  unfold expiryStep
  rw [hann]
  dsimp only
  rw [hdur]
  dsimp only
  rw [hct]

theorem c7_delete_after (w : World) (s : String) (dur created : Int)
    (hmig : (migrateWildcardIngress w.cd).2 = false)
    (his : w.cd.spec.imageSetRef = none)
    (hdel : w.cd.deletionTimestamp = none)
    (hann : lookupKV w.cd.anns deleteAfterAnnKey = some s)
    (hdur : parseGoDuration s = some dur)
    (hct : w.cd.creationTimestamp = some created) :
    (created + dur < w.now → reconcile w = (.done, [.deleteCD])) ∧
    (¬ created + dur < w.now → SteadyCore w →
      reconcile w = (.requeueAfter (created + dur - w.now + 60), [])) := by
  constructor
  · intro hpast
    have hexp2 : expiryStep w w.cd = (some (.done, [.deleteCD]), 0) := by
      rw [expiryStep_parsed w s dur created hann hdur hct, if_pos hpast]
    have hgis : getClusterImageSet w w.cd = (none, false, []) := by
      unfold getClusterImageSet; rw [his]
    unfold reconcile
    dsimp only
    simp [hmig, hgis, hdel, hexp2]
  · intro hnot hsteady
    have hexp2 : expiryStep w w.cd = (none, created + dur - w.now + 60) := by
      rw [expiryStep_parsed w s dur created hann hdur hct, if_neg hnot]
    have hr := steady_reconcile w hsteady (created + dur - w.now + 60) hexp2
    rw [hr]
    unfold finishReconcile
    rw [if_pos (by omega)]

/-- Witness for C7: a deployment with delete-after five minutes and creation
sixty minutes in the past is deleted; the same steady deployment observed
before expiry is requeued for the remaining time plus the margin. -/
theorem c7_delete_after_witness :
    reconcile expiredWorld = (.done, [.deleteCD]) ∧
    reconcile c7SteadyAnnWorld = (.requeueAfter 260, []) :=
  ⟨(c7_delete_after expiredWorld "5m" 300 0 (by decide) (by decide) (by decide)
      (by decide) (by decide) (by decide)).1 (by decide),
   (c7_delete_after c7SteadyAnnWorld "5m" 300 0 (by decide) (by decide) (by decide)
      (by decide) (by decide) (by decide)).2 (by decide) (by decide)⟩

/-- C8: an install job mid-deletion is never deleted again or recreated in
the same pass — the engine requeues after the fixed short delay (first
conjunct, a concrete evaluation). For the installer-image resolution job the
source tests the deletion timestamp of the freshly generated job instead of
the existing one, so an existing resolver job that is mid-deletion and
finished is deleted again in the same pass instead of being waited for
(remaining conjuncts evaluate the code at the failing input). -/
theorem c8_terminating_jobs :
    reconcile c8WaitWorld = (.requeueAfter defaultRequeueSeconds, []) ∧
    (c8ImagesetWorld.imagesetJob.map (fun j => j.deletionTimestamp.isSome)).getD false = true ∧
    (c8ImagesetWorld.imagesetJob.map isFinished).getD false = true ∧
    c8ImagesetWorld.cd.status.installerImage = none ∧
    reconcile c8ImagesetWorld = (.done, [.deleteImagesetJob (resourceName "foo" "imageset")]) := by
  decide

/-- C9: a fully-converged, already-installed deployment with an unchanged job
reconciles with no writes at all (so a second pass after convergence writes
nothing), and the kubeconfig fix-up applied to already-fixed data is a no-op
producing no write. -/
theorem c9_idempotent_fixed_point :
    (∀ w : World, SteadyCore w → lookupKV w.cd.anns deleteAfterAnnKey = none →
      reconcile w = (.done, [])) ∧
    (∀ sec : Secret, SecretFixed sec → fixupAdminKubeconfigSecret sec = (sec, [])) := by
  constructor
  · intro w hsteady hann
    have hexp2 : expiryStep w w.cd = (none, 0) := by
      unfold expiryStep; rw [hann]
    rw [steady_reconcile w hsteady 0 hexp2]
    rfl
  · exact fun sec h => fixup_fixed h

/-- Witness for C9: the concrete steady world reconciles with no writes and
its fixed-up secret is untouched by a second fix-up. -/
theorem c9_idempotent_fixed_point_witness :
    reconcile steadyWorld = (.done, []) ∧
    fixupAdminKubeconfigSecret kcSecret = (kcSecret, []) :=
  ⟨c9_idempotent_fixed_point.1 steadyWorld (by decide) (by decide),
   c9_idempotent_fixed_point.2 kcSecret (by decide)⟩

/-- C4 (amended): the installed flag mirrors the success of the observed
install job whenever a named job is observed — it is recomputed on every such
pass, so observing a non-successful job reverts it — and is left unchanged
when no job is observed; in particular a pass over an installed deployment
whose job was deleted performs no write and installed stays true. -/
theorem c4_installed_mirrors_job :
    (∀ (st : CDStatus) (j : Job), j.name ≠ "" → j.ns ≠ "" →
      (statusAfterJobObservation st (some j)).installed = isSuccessful j) ∧
    (∀ st : CDStatus, statusAfterJobObservation st none = st) ∧
    (∀ w : World, InstalledNoJob w →
      reconcile w = (.done, []) ∧ w.cd.status.installed = true) := by
  refine ⟨?_, fun st => rfl, ?_⟩
  · intro st j hn hns
    unfold statusAfterJobObservation
    dsimp only
    rw [if_pos ⟨hn, hns⟩]
  · intro w h
    obtain ⟨⟨hmig, his, hdel, hfin, hsshr, hsshl, himg, hdns⟩,
      hann, hinst, hjob, hadmin, hsec⟩ := h
    refine ⟨?_, hinst⟩
    have hupd : updateClusterDeploymentStatus w w.cd w.cd.status none = (none, []) := by
      have hheal : ¬(w.cd.status.installed = true ∧ w.cd.status.adminKubeconfigSecret = "") :=
        fun hc => hadmin hc.2
      unfold updateClusterDeploymentStatus statusAfterJobObservation
      dsimp only
      rw [if_neg hheal]
      rw [if_pos hadmin]
      rw [hsec]
      simp [statusPersist]
    have hexp2 : expiryStep w w.cd = (none, 0) := by
      unfold expiryStep; rw [hann]
    have hgis : getClusterImageSet w w.cd = (none, false, []) := by
      unfold getClusterImageSet; rw [his]
    obtain ⟨img, himg2⟩ := Option.isSome_iff_exists.mp himg
    generalize hk : w.cd.spec.sshKeyRef.getD "" = k at hsshr hsshl
    obtain ⟨sshKey, hkey2⟩ := Option.isSome_iff_exists.mp hsshl
    unfold reconcile
    dsimp only
    simp [hmig, hgis, hdel, hexp2, hfin, hsshr, hkey2, himg2, hdns, hjob,
      coreSync, hinst, hupd, finishReconcile]

/-- Witness for C4 (amended): a successful and an unsuccessful observed job
set the flag accordingly, and the concrete installed world without a job
reconciles without writes. -/
theorem c4_installed_mirrors_job_witness :
    (statusAfterJobObservation testStatus (some successJob)).installed = true ∧
    (statusAfterJobObservation steadyStatus (some failedNamedJob)).installed = false ∧
    statusAfterJobObservation steadyStatus none = steadyStatus ∧
    reconcile c4WitWorld = (.done, []) :=
  ⟨by rw [c4_installed_mirrors_job.1 testStatus successJob (by decide) (by decide)]; rfl,
   by rw [c4_installed_mirrors_job.1 steadyStatus failedNamedJob (by decide) (by decide)]; rfl,
   c4_installed_mirrors_job.2.1 steadyStatus,
   (c4_installed_mirrors_job.2.2 c4WitWorld (by decide)).1⟩

theorem deleteJobOnHashChange_eq (ej gj : Job) :
    deleteJobOnHashChange ej gj =
      (((jobAnn ej jobHashAnnKey).isNone ||
        jobAnnD ej jobHashAnnKey != jobAnnD gj jobHashAnnKey),
       if ((jobAnn ej jobHashAnnKey).isNone ||
           jobAnnD ej jobHashAnnKey != jobAnnD gj jobHashAnnKey) = true
       then [.deleteInstallJob ej.name] else []) := by
  unfold deleteJobOnHashChange
  dsimp only
  by_cases h : jobAnnD ej jobHashAnnKey ≠ jobAnnD gj jobHashAnnKey
  · simp [h, bne_iff_ne]
  · push_neg at h
    cases hin : (jobAnn ej jobHashAnnKey).isNone <;> simp [h, hin]

/-- C2: the recreation decision of the idempotency guard is exactly
hash-annotation-missing-or-value-differs; when it holds the guard deletes the
existing job (foreground cascade) and creates nothing in that pass; a pass
over an existing, not-yet-installed, non-terminating job whose hash annotation
is absent deletes exactly that job; and a following pass with the job gone
creates a fresh job bearing the hash annotation. -/
theorem c2_hash_recreation :
    (∀ ej gj : Job,
      (deleteJobOnHashChange ej gj).1
        = ((jobAnn ej jobHashAnnKey).isNone ||
           jobAnnD ej jobHashAnnKey != jobAnnD gj jobHashAnnKey) ∧
      ((deleteJobOnHashChange ej gj).1 = true →
        (deleteJobOnHashChange ej gj).2 = [.deleteInstallJob ej.name]) ∧
      ((deleteJobOnHashChange ej gj).1 = false →
        (deleteJobOnHashChange ej gj).2 = [])) ∧
    (∀ (w : World) (ej : Job), C2FirstPass w ej →
      reconcile w = (.done, [.deleteInstallJob ej.name])) ∧
    (∀ w : World, C2SecondPass w →
      reconcile w = (.done, [.ensureServiceAccount, .createInstallJob (forwardGenJob w)]) ∧
      (jobAnn (forwardGenJob w) jobHashAnnKey).isSome = true) := by
  refine ⟨?_, ?_, ?_⟩
  · intro ej gj
    rw [deleteJobOnHashChange_eq]
    refine ⟨rfl, ?_, ?_⟩
    · intro h1
      dsimp only at h1 ⊢
      rw [if_pos h1]
    · intro h1
      dsimp only at h1 ⊢
      rw [if_neg (by rw [h1]; exact Bool.false_ne_true)]
  · rintro w ej ⟨⟨hmig, his, hdel, hfin, hsshr, hsshl, himg, hdns⟩,
      hann, hinst, hpull, hcfg, hjob, hjdt, hhash, hgann, hrt⟩
    have hgis : getClusterImageSet w w.cd = (none, false, []) := by
      unfold getClusterImageSet; rw [his]
    have hexp2 : expiryStep w w.cd = (none, 0) := by
      unfold expiryStep; rw [hann]
    obtain ⟨img, himg2⟩ := Option.isSome_iff_exists.mp himg
    generalize hk : w.cd.spec.sshKeyRef.getD "" = k at hsshr hsshl
    obtain ⟨sshKey, hkey2⟩ := Option.isSome_iff_exists.mp hsshl
    obtain ⟨pullSecret, hpull2⟩ := Option.isSome_iff_exists.mp hpull
    have hgnone : jobAnn ej generationAnnKey = none := by
      cases hma : ej.anns with
      | none => unfold jobAnn; rw [hma]
      | some m => exact hgann (by rw [hma]; rfl)
    have hgo : ∀ hi ri sk pk : String,
        updateOutdatedConfigurations w.cd.generation ej
          (generateInstallerJob w.cd hi ri sk pk).2 = (false, []) := by
      intro hi ri sk pk
      unfold updateOutdatedConfigurations generateInstallerJob
      rw [hgnone]
      dsimp only
      simp [lookupKV, hrt]
    have hhc : ∀ hi ri sk pk : String,
        deleteJobOnHashChange ej
          (withHashAnn (generateInstallerJob w.cd hi ri sk pk).1
            (calculateJobSpecHash (generateInstallerJob w.cd hi ri sk pk).1))
          = (true, [.deleteInstallJob ej.name]) := by
      intro hi ri sk pk
      rw [deleteJobOnHashChange_eq, hhash]
      rfl
    unfold reconcile
    dsimp only
    simp [hmig, hgis, hdel, hexp2, hfin, hsshr, hkey2, himg2, hdns, hjob, hjdt,
      coreSync, hinst, hpull2, hcfg, hgo, hhc, ite_self]
  · rintro w ⟨⟨hmig, his, hdel, hfin, hsshr, hsshl, himg, hdns⟩,
      hann, hinst, hpull, hcfg, hjob, hadm0⟩
    have hgis : getClusterImageSet w w.cd = (none, false, []) := by
      unfold getClusterImageSet; rw [his]
    have hexp2 : expiryStep w w.cd = (none, 0) := by
      unfold expiryStep; rw [hann]
    obtain ⟨img, himg2⟩ := Option.isSome_iff_exists.mp himg
    generalize hk : w.cd.spec.sshKeyRef.getD "" = k at hsshr hsshl
    obtain ⟨sshKey, hkey2⟩ := Option.isSome_iff_exists.mp hsshl
    obtain ⟨pullSecret, hpull2⟩ := Option.isSome_iff_exists.mp hpull
    have hupd2 : updateClusterDeploymentStatus w w.cd w.cd.status none = (none, []) := by
      have h1 : ¬(w.cd.status.installed = true ∧ w.cd.status.adminKubeconfigSecret = "") := by
        rw [hinst]
        rintro ⟨hc, _⟩
        exact Bool.noConfusion hc
      have h2 : ¬(w.cd.status.adminKubeconfigSecret ≠ "") := by simp [hadm0]
      unfold updateClusterDeploymentStatus statusAfterJobObservation
      dsimp only
      rw [if_neg h1]
      rw [if_neg h2]
      simp [statusPersist]
    have hfg : forwardGenJob w =
        withHashAnn
          (generateInstallerJob w.cd (getHiveImage w.cd none) (getReleaseImage w.cd none)
            sshKey pullSecret).1
          (calculateJobSpecHash
            (generateInstallerJob w.cd (getHiveImage w.cd none) (getReleaseImage w.cd none)
              sshKey pullSecret).1) := by
      unfold forwardGenJob
      dsimp only
      rw [hgis, hk, hkey2, hpull2]
      rfl
    constructor
    · rw [hfg]
      unfold reconcile
      dsimp only
      simp [hmig, hgis, hdel, hexp2, hfin, hsshr, hkey2, himg2, hdns, hjob,
        coreSync, hinst, hpull2, hcfg, hupd2, finishReconcile]
    · rw [hfg]
      have hne : ¬(generationAnnKey = jobHashAnnKey) := by decide
      unfold withHashAnn generateInstallerJob jobAnn
      dsimp only
      simp [setKV, lookupKV, hne]

/-- Witness for C2: a concrete job with a nil annotation map is deleted by the
first pass, and the second pass with the job gone creates the hash-annotated
replacement. -/
theorem c2_hash_recreation_witness :
    (deleteJobOnHashChange runningJob (forwardGenJob c2FirstWorld)).1 = true ∧
    reconcile c2FirstWorld = (.done, [.deleteInstallJob "foo-install"]) ∧
    reconcile c2SecondWorld
      = (.done, [.ensureServiceAccount, .createInstallJob (forwardGenJob c2SecondWorld)]) ∧
    (jobAnn (forwardGenJob c2SecondWorld) jobHashAnnKey).isSome = true :=
  ⟨by rw [(c2_hash_recreation.1 runningJob (forwardGenJob c2FirstWorld)).1]; decide,
   c2_hash_recreation.2.1 c2FirstWorld runningJob (by decide),
   (c2_hash_recreation.2.2 c2SecondWorld (by decide)).1,
   (c2_hash_recreation.2.2 c2SecondWorld (by decide)).2⟩

/-- Counterexample for C4 as frozen: a pass that observes a named,
non-successful install job while installed is true recomputes the flag and
writes installed back to false. -/
theorem c4_counterexample :
    c4CexWorld.cd.status.installed = true ∧
    c4CexWorld.installJob = some failedNamedJob ∧
    failedNamedJob.deletionTimestamp = none ∧
    isSuccessful failedNamedJob = false ∧
    reconcile c4CexWorld
      = (.done, [.updateCDStatus { c4CexWorld.cd.status with installed := false }]) := by
  decide

end Hive
